import Mathlib

/-!
Verification of the profile/job matching subsystem of the job-tracker backend
(`backend/services/matcher.py`): the hash-based fingerprint encoder, the
cosine similarity scorer, the job ranker and the skill-gap analyzer.

Modelling conventions:
* Python floats are modelled as exact rationals (`ℚ`) for all data that the
  program stores and compares structurally; similarity scores, whose
  computation involves a square root, live in `ℝ`.
* Python dictionaries holding profile / job records are modelled as
  structures whose fields are `Option`-typed where the corresponding key may
  be absent; Python truthiness tests (`if not x`) on those fields are
  translated explicitly.
* `try/except` blocks are modelled with `pyTry`: in this typed embedding the
  translated body is total, and the handler value records the `except`
  branch's fallback result.
-/

namespace Matcher

/-! ### Python string primitives -/

/-- The whitespace characters recognised by Python's `str.split()`
(space, tab, newline, carriage return, vertical tab, form feed). -/
def isPySpace (c : Char) : Bool :=
  c = ' ' || c = '\t' || c = '\n' || c = '\r' || c = '\x0b' || c = '\x0c'

/-- Helper for `pySplit`: `acc` is the current word accumulated in reverse. -/
def pySplitAux : List Char → List Char → List String
  | [], [] => []
  | [], acc => [String.mk acc.reverse]
  | c :: cs, acc =>
    if isPySpace c then
      match acc with
      | [] => pySplitAux cs []
      | _ => String.mk acc.reverse :: pySplitAux cs []
    else pySplitAux cs (c :: acc)

/-- Python's `str.split()` with no argument: split on runs of whitespace,
discarding empty fragments. -/
def pySplit (s : String) : List String :=
  pySplitAux s.data []

/-- Python's `str.lower()`, restricted to ASCII letters (the repository's
inputs; `Char.toLower` lower-cases exactly the ASCII range). -/
def pyLower (s : String) : String :=
  String.mk (s.data.map Char.toLower)

/-! ### MD5 (`hashlib.md5(word.encode()).hexdigest()` read back as an integer)

All arithmetic is on `ℕ` reduced mod `2^32`; the 64 sine-derived round
constants and per-round shift amounts are the ones fixed by RFC 1321. -/

/-- UTF-8 encoding of one character, as byte values. -/
def utf8EncodeCharNat (c : Char) : List ℕ :=
  let n := c.toNat
  if n < 128 then [n]
  else if n < 2048 then [192 + n / 64, 128 + n % 64]
  else if n < 65536 then [224 + n / 4096, 128 + n / 64 % 64, 128 + n % 64]
  else [240 + n / 262144, 128 + n / 4096 % 64, 128 + n / 64 % 64, 128 + n % 64]

/-- UTF-8 encoding of a string (Python's `str.encode()`), as byte values. -/
def utf8Bytes (s : String) : List ℕ :=
  (s.data.map utf8EncodeCharNat).flatten

/-- 32-bit left rotation. -/
def rotl32 (x s : ℕ) : ℕ :=
  x * 2 ^ s % 2 ^ 32 + x / 2 ^ (32 - s)

/-- 32-bit bitwise complement (for values `< 2^32`). -/
def compl32 (x : ℕ) : ℕ := 4294967295 - x

/-- The 64 MD5 round constants `⌊2^32·|sin(i+1)|⌋`. -/
def md5K : List ℕ :=
  [3614090360, 3905402710, 606105819, 3250441966, 4118548399, 1200080426,
   2821735955, 4249261313, 1770035416, 2336552879, 4294925233, 2304563134,
   1804603682, 4254626195, 2792965006, 1236535329, 4129170786, 3225465664,
   643717713, 3921069994, 3593408605, 38016083, 3634488961, 3889429448,
   568446438, 3275163606, 4107603335, 1163531501, 2850285829, 4243563512,
   1735328473, 2368359562, 4294588738, 2272392833, 1839030562, 4259657740,
   2763975236, 1272893353, 4139469664, 3200236656, 681279174, 3936430074,
   3572445317, 76029189, 3654602809, 3873151461, 530742520, 3299628645,
   4096336452, 1126891415, 2878612391, 4237533241, 1700485571, 2399980690,
   4293915773, 2240044497, 1873313359, 4264355552, 2734768916, 1309151649,
   4149444226, 3174756917, 718787259, 3951481745]

/-- The 64 MD5 per-step left-rotation amounts. -/
def md5S : List ℕ :=
  [7, 12, 17, 22, 7, 12, 17, 22, 7, 12, 17, 22, 7, 12, 17, 22,
   5, 9, 14, 20, 5, 9, 14, 20, 5, 9, 14, 20, 5, 9, 14, 20,
   4, 11, 16, 23, 4, 11, 16, 23, 4, 11, 16, 23, 4, 11, 16, 23,
   6, 10, 15, 21, 6, 10, 15, 21, 6, 10, 15, 21, 6, 10, 15, 21]

/-- MD5 message padding: append `0x80`, zero-pad to 56 mod 64, then the
original length in bits as eight little-endian bytes. -/
def md5Pad (msg : List ℕ) : List ℕ :=
  let bitLen := msg.length * 8 % 2 ^ 64
  let padLen := (55 + 64 - msg.length % 64) % 64 + 1
  msg ++ (128 :: List.replicate (padLen - 1) 0) ++
    (List.range 8).map (fun i => bitLen / 2 ^ (8 * i) % 256)

/-- Read a 64-byte chunk as sixteen little-endian 32-bit words. -/
def md5Words (chunk : List ℕ) : List ℕ :=
  (List.range 16).map (fun j =>
    chunk.getD (4 * j) 0 + chunk.getD (4 * j + 1) 0 * 256 +
      chunk.getD (4 * j + 2) 0 * 65536 + chunk.getD (4 * j + 3) 0 * 16777216)

/-- One of the 64 MD5 steps: `st = (a, b, c, d)`, step index `i`,
message words `m`. -/
def md5Step (m : List ℕ) (st : ℕ × ℕ × ℕ × ℕ) (i : ℕ) : ℕ × ℕ × ℕ × ℕ :=
  let (a, b, c, d) := st
  let f :=
    if i < 16 then Nat.lor (Nat.land b c) (Nat.land (compl32 b) d)
    else if i < 32 then Nat.lor (Nat.land d b) (Nat.land (compl32 d) c)
    else if i < 48 then Nat.xor b (Nat.xor c d)
    else Nat.xor c (Nat.lor b (compl32 d))
  let g :=
    if i < 16 then i
    else if i < 32 then (5 * i + 1) % 16
    else if i < 48 then (3 * i + 5) % 16
    else 7 * i % 16
  let f := (f + a + md5K.getD i 0 + m.getD g 0) % 2 ^ 32
  (d, (b + rotl32 f (md5S.getD i 0)) % 2 ^ 32, b, c)

/-- Process one 64-byte chunk against the running state. -/
def md5Chunk (st : ℕ × ℕ × ℕ × ℕ) (chunk : List ℕ) : ℕ × ℕ × ℕ × ℕ :=
  let (a0, b0, c0, d0) := st
  let (a, b, c, d) := (List.range 64).foldl (md5Step (md5Words chunk)) st
  ((a0 + a) % 2 ^ 32, (b0 + b) % 2 ^ 32, (c0 + c) % 2 ^ 32, (d0 + d) % 2 ^ 32)

/-- Fold the padded message 64 bytes at a time; `fuel` bounds recursion and
is instantiated with the message length (one byte per unit suffices). -/
def md5Chunks (fuel : ℕ) (bytes : List ℕ) (st : ℕ × ℕ × ℕ × ℕ) : ℕ × ℕ × ℕ × ℕ :=
  match fuel, bytes with
  | _, [] => st
  | 0, _ => st
  | fuel + 1, bytes => md5Chunks fuel (bytes.drop 64) (md5Chunk st (bytes.take 64))

/-- Serialize a 32-bit word as four little-endian bytes. -/
def wordLEBytes (x : ℕ) : List ℕ :=
  [x % 256, x / 256 % 256, x / 65536 % 256, x / 16777216 % 256]

/-- The 16-byte MD5 digest of a byte string. -/
def md5Digest (msg : List ℕ) : List ℕ :=
  let padded := md5Pad msg
  let (a, b, c, d) :=
    md5Chunks padded.length padded (1732584193, 4023233417, 2562383102, 271733878)
  wordLEBytes a ++ wordLEBytes b ++ wordLEBytes c ++ wordLEBytes d

/-- Python's `int(hashlib.md5(word.encode()).hexdigest(), 16)`: the digest
bytes read as one big-endian integer. -/
def md5Int (word : String) : ℕ :=
  (md5Digest (utf8Bytes word)).foldl (fun acc b => acc * 256 + b) 0

/-! ### Fingerprint encoder (`_simple_embedding`) -/

/-- Add `v` to the component at index `i` (Python's `embedding[idx] += v`). -/
def addAt : List ℚ → ℕ → ℚ → List ℚ
  | [], _, _ => []
  | x :: xs, 0, v => (x + v) :: xs
  | x :: xs, n + 1, v => x :: addAt xs n v

/-- The bucket index of a word: `int(md5(word).hexdigest(), 16) % 128`. -/
def hashIdx (w : String) : ℕ := md5Int w % 128

/-- `_simple_embedding` from `matcher.py`: lowercase, split on whitespace,
add `1.0 / max(1, len(words))` to bucket `hashIdx word` for each distinct
word, then divide by the total if it is positive.  Python iterates
`set(words)` in unspecified order; since the bucket additions commute, the
result is order-independent and the distinct words are modelled by
`List.dedup`. -/
def _simple_embedding (text : String) : List ℚ :=
  let words := pySplit (pyLower text)
  let embedding := words.dedup.foldl
    (fun emb w => addAt emb (hashIdx w) (1 / (max 1 words.length : ℕ)))
    (List.replicate 128 (0 : ℚ))
  let total := embedding.sum
  if 0 < total then embedding.map (· / total) else embedding

/-- The encoder as worded by the specification: iterate the set of distinct
words, add `1.0 / total_token_count` (all tokens counted) to the bucket
`hash(word) mod 128`, then divide every component by the vector's sum;
empty or whitespace-only input yields the all-zero vector of length 128. -/
def simple_embedding_claim (text : String) : List ℚ :=
  let words := pySplit (pyLower text)
  if words = [] then List.replicate 128 0
  else
    let acc := words.dedup.foldl
      (fun emb w => addAt emb (hashIdx w) (1 / (words.length : ℕ)))
      (List.replicate 128 (0 : ℚ))
    acc.map (· / acc.sum)

/-! ### Data model -/

/-- Education sub-record of a profile (`user_profile["education"]`). -/
structure Education where
  degree : Option String
  field : Option String

/-- A user profile record; every key the matcher reads may be absent.
An absent or empty `education` dict is modelled as `none` (both are falsy
in the source's truthiness tests). -/
structure Profile where
  skills : Option (List String)
  experience_years : Option ℚ
  target_roles : Option (List String)
  education : Option Education
  resume_text : Option String
  resume_embedding : Option (List ℚ)

/-- A job posting record.  `match_score` models the `"match_score"` key the
ranker writes onto its *copies* of job records (input records may or may
not carry one). -/
structure Job where
  title : Option String
  company : Option String
  location : Option String
  skills_required : Option (List String)
  experience_min : Option ℚ
  experience_max : Option ℚ
  description : Option String
  requirements : Option String
  job_embedding : Option (List ℚ)
  match_score : Option ℝ

/-- Python truthiness of an optional string (`None` and `""` are falsy). -/
def strTruthy : Option String → Bool
  | none => false
  | some s => s ≠ ""

/-- Python truthiness of an optional list (`None` and `[]` are falsy). -/
def listTruthy {α : Type} : Option (List α) → Bool
  | none => false
  | some l => !l.isEmpty

/-- Python truthiness of an optional number (`None` and `0` are falsy). -/
def numTruthy : Option ℚ → Bool
  | none => false
  | some q => q ≠ 0

/-- Stand-in for Python's rendering of a number into an f-string.  The exact
rendering only feeds the hash encoder and no claim depends on it. -/
def numStr (q : ℚ) : String :=
  if q.den = 1 then toString q.num else toString q.num ++ "/" ++ toString q.den

/-- Models a `try: body except: handler` block whose translated body is a
total function: the handler value records the `except` branch's result. -/
def pyTry {α : Type} (body _handler : α) : α := body

/-- The `except` fallback of `create_profile_embedding`: `[0.0] * 128`. -/
def profileEmbeddingFallback : List ℚ := List.replicate 128 0

/-- The `except` fallback of `create_job_embedding`: `[0.0] * 128`. -/
def jobEmbeddingFallback : List ℚ := List.replicate 128 0

/-- `create_profile_embedding` from `matcher.py`: concatenate the labelled
profile segments that are (truthily) present with `" | "` and encode. -/
def create_profile_embedding (p : Profile) : List ℚ :=
  pyTry
    (let parts : List String :=
      (if strTruthy p.resume_text then [(p.resume_text.getD "").take 500] else [])
    let parts :=
      (if p.education.isSome then
        ["Education: " ++ ((p.education.getD ⟨none, none⟩).degree.getD "") ++
          " in " ++ ((p.education.getD ⟨none, none⟩).field.getD "")]
       else []) ++ parts
    let parts :=
      (if listTruthy p.target_roles then
        ["Target roles: " ++ String.intercalate ", " (p.target_roles.getD [])]
       else []) ++ parts
    let parts :=
      (if numTruthy p.experience_years then
        ["Experience: " ++ numStr (p.experience_years.getD 0) ++ " years"]
       else []) ++ parts
    let parts :=
      (if listTruthy p.skills then
        ["Skills: " ++ String.intercalate ", " (p.skills.getD [])]
       else []) ++ parts
    _simple_embedding (String.intercalate " | " parts))
    profileEmbeddingFallback

/-- `create_job_embedding` from `matcher.py`. -/
def create_job_embedding (j : Job) : List ℚ :=
  pyTry
    (let parts : List String :=
      (if strTruthy j.requirements then [(j.requirements.getD "").take 300] else [])
    let parts :=
      (if strTruthy j.description then [(j.description.getD "").take 500] else []) ++ parts
    let parts :=
      (if numTruthy j.experience_min || numTruthy j.experience_max then
        ["Experience: " ++ numStr (j.experience_min.getD 0) ++ "-" ++
          (match j.experience_max with | none => "" | some q => numStr q) ++ " years"]
       else []) ++ parts
    let parts :=
      (if listTruthy j.skills_required then
        ["Required skills: " ++ String.intercalate ", " (j.skills_required.getD [])]
       else []) ++ parts
    let parts :=
      (if strTruthy j.location then ["Location: " ++ (j.location.getD "")] else []) ++ parts
    let parts :=
      (if strTruthy j.company then ["Company: " ++ (j.company.getD "")] else []) ++ parts
    let parts :=
      (if strTruthy j.title then ["Title: " ++ (j.title.getD "")] else []) ++ parts
    _simple_embedding (String.intercalate " | " parts))
    jobEmbeddingFallback

/-! ### Similarity scorer (`calculate_match_score`) -/

/-- Sum of pairwise products (Python's
`sum(p * j for p, j in zip(a, b))`). -/
def dotQ (a b : List ℚ) : ℚ := (List.zipWith (· * ·) a b).sum

/-- Sum of squares of the components (the squared L2 norm). -/
def sumSq (a : List ℚ) : ℚ := (a.map (fun x => x * x)).sum

/-- Python's `round(x, 2)` on the score.  Ties at the third decimal follow
round-half-up here; Python rounds the underlying binary float half-to-even,
which differs only at exact ties, and no claim exercises a tie. -/
noncomputable def round2 (x : ℝ) : ℝ := (round (x * 100) : ℤ) / 100

/-- The `except` fallback of `calculate_match_score`: `0.0`. -/
def scoreFallback : ℝ := 0

/-- `calculate_match_score` from `matcher.py`: cosine similarity of the two
vectors truncated to the shorter length, clamped into `[0, 100]` after
scaling by 100, rounded to two decimals; `0` on an empty input or a zero
denominator. -/
noncomputable def calculate_match_score (a b : List ℚ) : ℝ :=
  pyTry
    (if a = [] ∨ b = [] then 0
     else
      let minLen := min a.length b.length
      let a' := a.take minLen
      let b' := b.take minLen
      let dot := dotQ a' b'
      let normA := Real.sqrt (sumSq a' : ℚ)
      let normB := Real.sqrt (sumSq b' : ℚ)
      let denom := normA * normB
      if denom = 0 then 0
      else round2 (max 0 (min 100 ((dot : ℝ) / denom * 100))))
    scoreFallback

/-- The scorer as worded by the specification: `0` when either input is
empty or either truncated vector's L2 norm is `0`; otherwise the cosine
similarity clamped to `[0, 1]`, multiplied by 100 and rounded to two
decimals. -/
noncomputable def score_claim (a b : List ℚ) : ℝ :=
  if a = [] ∨ b = [] then 0
  else
    let a' := a.take (min a.length b.length)
    let b' := b.take (min a.length b.length)
    if Real.sqrt (sumSq a' : ℚ) = 0 ∨ Real.sqrt (sumSq b' : ℚ) = 0 then 0
    else
      round2 (min 1 (max 0 ((dotQ a' b' : ℝ) /
        (Real.sqrt (sumSq a' : ℚ) * Real.sqrt (sumSq b' : ℚ)))) * 100)

/-! ### Ranker (`find_matching_jobs`) -/

/-- `x.get("…_embedding")` followed by the truthiness test `if not x:`:
a missing or empty cached embedding is replaced by the freshly computed
one. -/
def truthyEmbedding (cached : Option (List ℚ)) (computed : List ℚ) : List ℚ :=
  match cached with
  | none => computed
  | some e => if e = [] then computed else e

/-- The sort key `lambda x: x["match_score"]` (every sorted record carries
the key; `getD 0` is the total model of the lookup). -/
noncomputable def scoreKey (j : Job) : ℝ := j.match_score.getD 0

/-- The ordering that models Python's `list.sort(key=…, reverse=True)`:
`a` may precede `b` iff `a`'s score is at least `b`'s.  Python's sort is
stable; insertion sort along this total preorder is the stable descending
sort, so the two agree on every list. -/
def jobRel (a b : Job) : Prop := scoreKey b ≤ scoreKey a

noncomputable instance : DecidableRel jobRel := fun a b =>
  inferInstanceAs (Decidable (scoreKey b ≤ scoreKey a))

/-- `matching_jobs.sort(key=lambda x: x["match_score"], reverse=True)`. -/
noncomputable def sortJobs : List Job → List Job := List.insertionSort jobRel

/-- The `except` fallback of `find_matching_jobs`: `[]`. -/
def rankFallback : List Job := []

/-- `find_matching_jobs` from `matcher.py` (the source defaults are
`min_score=40.0`, `top_n=50`): resolve the profile fingerprint from the
cache or compute it, accumulate a score-stamped copy of every job whose
score reaches the threshold, sort by score descending, keep the first
`top_n`. -/
noncomputable def find_matching_jobs (p : Profile) (jobs : List Job)
    (min_score : ℝ) (top_n : ℕ) : List Job :=
  pyTry
    (let profile_embedding := truthyEmbedding p.resume_embedding (create_profile_embedding p)
    let matching_jobs := jobs.foldl
      (fun acc job =>
        let job_embedding := truthyEmbedding job.job_embedding (create_job_embedding job)
        let score := calculate_match_score profile_embedding job_embedding
        if min_score ≤ score then acc ++ [{ job with match_score := some score }] else acc)
      []
    (sortJobs matching_jobs).take top_n)
    rankFallback

/-- The score of one job against one profile, resolving both fingerprints
from the cache when present (else computing them on the fly). -/
noncomputable def jobScore (p : Profile) (j : Job) : ℝ :=
  calculate_match_score
    (truthyEmbedding p.resume_embedding (create_profile_embedding p))
    (truthyEmbedding j.job_embedding (create_job_embedding j))

/-- The jobs kept by the specification's ranking rule: exactly those whose
score reaches `min_score`, each stamped with its computed score. -/
noncomputable def rankKept (p : Profile) (jobs : List Job) (min_score : ℝ) : List Job :=
  (jobs.filter (fun j => decide (min_score ≤ jobScore p j))).map
    (fun j => { j with match_score := some (jobScore p j) })

/-- The ranker as worded by the specification: keep exactly the jobs whose
score is at least `min_score`, stamp each with its score, sort by score
descending (stable), truncate to the first `top_n`. -/
noncomputable def rank_claim (p : Profile) (jobs : List Job)
    (min_score : ℝ) (top_n : ℕ) : List Job :=
  (sortJobs (rankKept p jobs min_score)).take top_n

/-- Forget the ephemeral `match_score` field of a record. -/
def stripScore (j : Job) : Job := { j with match_score := none }

/-! ### Skill-gap analyzer (`analyze_skill_gap`) -/

/-- Python's `round(x, 1)` (see `round2` for the tie caveat). -/
def round1 (q : ℚ) : ℚ := round (q * 10) / 10

/-- Python's `f"{x:.1f}"` for the non-negative gap values it renders. -/
def fmtFixed1 (q : ℚ) : String :=
  let n : ℤ := round (q * 10)
  toString (n / 10) ++ "." ++ toString (n % 10)

/-- The result record of `analyze_skill_gap`. -/
structure SkillGapResult where
  matching_skills : List String
  missing_skills : List String
  match_percentage : ℚ
  experience_gap_years : ℚ
  recommendations : List String

/-- The `except` fallback of `analyze_skill_gap`. -/
def skillGapFallback : SkillGapResult :=
  { matching_skills := []
    missing_skills := []
    match_percentage := 0
    experience_gap_years := 0
    recommendations := ["Unable to analyze skill gap"] }

/-- `analyze_skill_gap` from `matcher.py`.  Python materialises
`set(...)` values whose iteration order is unspecified; the sets are
modelled as deduplicated lists in first-occurrence order, which fixes one
admissible order for `list(...)` and `", ".join(...)`. -/
def analyze_skill_gap (p : Profile) (j : Job) : SkillGapResult :=
  pyTry
    (let user_skills := ((p.skills.getD []).map pyLower).dedup
    let required_skills := ((j.skills_required.getD []).map pyLower).dedup
    let matching_skills := required_skills.filter (fun s => decide (s ∈ user_skills))
    let missing_skills := required_skills.filter (fun s => decide (s ∉ user_skills))
    let match_percentage : ℚ :=
      if required_skills = [] then 100
      else (matching_skills.length : ℚ) / required_skills.length * 100
    let recommendations : List String :=
      if missing_skills = [] then []
      else ["Consider learning: " ++ String.intercalate ", " (missing_skills.take 5)]
    let recommendations :=
      if match_percentage < 70 then
        recommendations ++ ["Build more experience in the required skill areas",
          "Consider taking online courses or certifications"]
      else recommendations
    let user_exp := p.experience_years.getD 0
    let required_exp_min := j.experience_min.getD 0
    let recommendations :=
      if required_exp_min ≠ 0 ∧ user_exp < required_exp_min then
        recommendations ++
          ["Gain " ++ fmtFixed1 (required_exp_min - user_exp) ++
            " more years of relevant experience"]
      else recommendations
    { matching_skills := matching_skills
      missing_skills := missing_skills
      match_percentage := round1 match_percentage
      experience_gap_years :=
        if required_exp_min ≠ 0 then max 0 (required_exp_min - user_exp) else 0
      recommendations := recommendations })
    skillGapFallback

/-- The lowercased skill set of a raw skill list. -/
def lowerSet (l : List String) : Finset String := (l.map pyLower).toFinset

/-- The recommendation rules as worded by the specification: each
applicable rule emits its message, in the fixed order given. -/
def recommendations_claim (p : Profile) (j : Job) : List String :=
  let user_skills := ((p.skills.getD []).map pyLower).dedup
  let required_skills := ((j.skills_required.getD []).map pyLower).dedup
  let missing := required_skills.filter (fun s => decide (s ∉ user_skills))
  let pct : ℚ :=
    if required_skills = [] then 100
    else ((required_skills.filter (fun s => decide (s ∈ user_skills))).length : ℚ) /
      required_skills.length * 100
  let gap := (analyze_skill_gap p j).experience_gap_years
  (if missing ≠ [] then
    ["Consider learning: " ++ String.intercalate ", " (missing.take 5)] else []) ++
  (if pct < 70 then
    ["Build more experience in the required skill areas",
     "Consider taking online courses or certifications"] else []) ++
  (if 0 < gap then
    ["Gain " ++ fmtFixed1 gap ++ " more years of relevant experience"] else [])

/-! ### Lemmas about the encoder's bucket accumulation -/

theorem addAt_length (l : List ℚ) (i : ℕ) (v : ℚ) : (addAt l i v).length = l.length := by
  induction l generalizing i with
  | nil => rfl
  | cons x xs ih => cases i with
    | zero => rfl
    | succ n => simpa [addAt] using ih n

theorem addAt_sum (l : List ℚ) (i : ℕ) (v : ℚ) (h : i < l.length) :
    (addAt l i v).sum = l.sum + v := by
  induction l generalizing i with
  | nil => simp at h
  | cons x xs ih =>
    cases i with
    | zero => simp [addAt]; ring
    | succ n =>
      have := ih n (by simpa using h)
      simp [addAt, this]
      ring

theorem addAt_nonneg (l : List ℚ) (i : ℕ) (v : ℚ) (hv : 0 ≤ v)
    (hl : ∀ x ∈ l, 0 ≤ x) : ∀ x ∈ addAt l i v, 0 ≤ x := by
  induction l generalizing i with
  | nil => simp [addAt]
  | cons y ys ih =>
    cases i with
    | zero =>
      intro x hx
      rcases List.mem_cons.mp hx with h | h
      · subst h; exact add_nonneg (hl y (by simp)) hv
      · exact hl x (List.mem_cons_of_mem _ h)
    | succ n =>
      intro x hx
      rcases List.mem_cons.mp hx with h | h
      · subst h; exact hl x (by simp)
      · exact ih n (fun z hz => hl z (List.mem_cons_of_mem _ hz)) x h

theorem hashIdx_lt (w : String) : hashIdx w < 128 :=
  Nat.mod_lt _ (by norm_num)

theorem foldl_addAt_length (q : ℚ) : ∀ (ws : List String) (emb : List ℚ),
    (ws.foldl (fun e w => addAt e (hashIdx w) q) emb).length = emb.length := by
  intro ws
  induction ws with
  | nil => intro emb; rfl
  | cons w ws ih => intro emb; rw [List.foldl_cons, ih, addAt_length]

theorem foldl_addAt_sum (q : ℚ) : ∀ (ws : List String) (emb : List ℚ),
    emb.length = 128 →
    (ws.foldl (fun e w => addAt e (hashIdx w) q) emb).sum = emb.sum + ws.length * q := by
  intro ws
  induction ws with
  | nil => intro emb _; simp
  | cons w ws ih =>
    intro emb hlen
    rw [List.foldl_cons, ih _ (by rw [addAt_length]; exact hlen),
      addAt_sum _ _ _ (by rw [hlen]; exact hashIdx_lt w), List.length_cons]
    push_cast
    ring

theorem foldl_addAt_nonneg (q : ℚ) (hq : 0 ≤ q) : ∀ (ws : List String) (emb : List ℚ),
    (∀ x ∈ emb, 0 ≤ x) →
    ∀ x ∈ ws.foldl (fun e w => addAt e (hashIdx w) q) emb, 0 ≤ x := by
  intro ws
  induction ws with
  | nil => intro emb h; simpa using h
  | cons w ws ih =>
    intro emb h
    exact ih _ (addAt_nonneg _ _ _ hq h)

theorem sum_map_div (l : List ℚ) (t : ℚ) : (l.map (· / t)).sum = l.sum / t := by
  induction l with
  | nil => simp
  | cons x xs ih => simp [ih, add_div]

/-- Proof-side name for the bucket accumulator of a non-empty token list. -/
def rawBuckets (ws : List String) : List ℚ :=
  ws.dedup.foldl (fun e w => addAt e (hashIdx w) (1 / (ws.length : ℚ)))
    (List.replicate 128 0)

theorem rawBuckets_length (ws : List String) : (rawBuckets ws).length = 128 := by
  rw [rawBuckets, foldl_addAt_length, List.length_replicate]

theorem rawBuckets_sum (ws : List String) :
    (rawBuckets ws).sum = ws.dedup.length * (1 / (ws.length : ℚ)) := by
  rw [rawBuckets, foldl_addAt_sum _ _ _ (List.length_replicate _ _)]
  simp

theorem rawBuckets_nonneg (ws : List String) : ∀ x ∈ rawBuckets ws, 0 ≤ x := by
  refine foldl_addAt_nonneg _ ?_ _ _ ?_
  · positivity
  · intro x hx
    rw [List.eq_of_mem_replicate hx]

theorem rawBuckets_sum_pos (ws : List String) (h : ws ≠ []) : 0 < (rawBuckets ws).sum := by
  rw [rawBuckets_sum]
  have h1 : 0 < (ws.length : ℚ) := by
    exact_mod_cast List.length_pos.mpr h
  have h2 : 0 < (ws.dedup.length : ℚ) := by
    exact_mod_cast List.length_pos.mpr ((List.dedup_eq_nil ws).ne.mpr h)
  positivity

theorem simple_embedding_of_ne_nil (text : String) (h : pySplit (pyLower text) ≠ []) :
    _simple_embedding text =
      (rawBuckets (pySplit (pyLower text))).map
        (· / (rawBuckets (pySplit (pyLower text))).sum) := by
  have hmax : max 1 (pySplit (pyLower text)).length = (pySplit (pyLower text)).length :=
    Nat.max_eq_right (List.length_pos.mpr h)
  rw [_simple_embedding]
  simp only [hmax]
  rw [← rawBuckets, if_pos (rawBuckets_sum_pos _ h)]

theorem simple_embedding_of_nil (text : String) (h : pySplit (pyLower text) = []) :
    _simple_embedding text = List.replicate 128 0 := by
  rw [_simple_embedding]
  simp [h, List.dedup_nil]

theorem claim_embedding_of_ne_nil (text : String) (h : pySplit (pyLower text) ≠ []) :
    simple_embedding_claim text =
      (rawBuckets (pySplit (pyLower text))).map
        (· / (rawBuckets (pySplit (pyLower text))).sum) := by
  rw [simple_embedding_claim]
  simp only [if_neg h]
  rw [← rawBuckets]

/-! ### C1 and C5 -/

/-- **C1.** For every input string, `_simple_embedding` computes exactly the
specified bucketed term-frequency hash: lowercase the text, split on
whitespace, iterate the set of distinct words adding
`1.0 / total_token_count` to the bucket `hash(word) mod 128`, then divide
every component by the vector's sum; empty or whitespace-only input yields
the all-zero vector of length 128. -/
theorem simple_embedding_matches_claim (text : String) :
    _simple_embedding text = simple_embedding_claim text := by
  by_cases h : pySplit (pyLower text) = []
  · rw [simple_embedding_of_nil text h, simple_embedding_claim, if_pos h]
  · rw [simple_embedding_of_ne_nil text h, claim_embedding_of_ne_nil text h]

/-- Closed witness for C1 at a concrete input covering both the repeated
word and the normalisation paths ("hello world hello": 3 tokens, 2 distinct
words). -/
theorem simple_embedding_matches_claim_witness :
    _simple_embedding "hello world hello" = simple_embedding_claim "hello world hello" :=
  simple_embedding_matches_claim "hello world hello"

/-- **C5.** Every fingerprint produced by the encoder has length 128, only
non-negative components, and either sums to 1 (at least one token) or is
the all-zero vector (no tokens). -/
theorem fingerprint_invariant (text : String) :
    (_simple_embedding text).length = 128 ∧
    (_simple_embedding text).Forall (fun x => 0 ≤ x) ∧
    (if pySplit (pyLower text) = [] then _simple_embedding text = List.replicate 128 0
     else (_simple_embedding text).sum = 1) := by
  by_cases h : pySplit (pyLower text) = []
  · rw [simple_embedding_of_nil text h, if_pos h]
    refine ⟨List.length_replicate _ _, ?_, rfl⟩
    rw [List.forall_iff_forall_mem]
    intro x hx
    rw [List.eq_of_mem_replicate hx]
  · rw [simple_embedding_of_ne_nil text h, if_neg h]
    have hpos := rawBuckets_sum_pos _ h
    refine ⟨by rw [List.length_map, rawBuckets_length], ?_, ?_⟩
    · rw [List.forall_iff_forall_mem]
      intro x hx
      rcases List.mem_map.mp hx with ⟨y, hy, rfl⟩
      exact div_nonneg (rawBuckets_nonneg _ y hy) hpos.le
    · rw [sum_map_div, div_self hpos.ne']

/-! ### Lemmas about the scorer -/

theorem sumSq_nonneg (a : List ℚ) : 0 ≤ sumSq a := by
  refine List.sum_nonneg ?_
  intro x hx
  rcases List.mem_map.mp hx with ⟨y, _, rfl⟩
  exact mul_self_nonneg y

theorem dotQ_comm (x y : List ℚ) : dotQ x y = dotQ y x := by
  rw [dotQ, dotQ, List.zipWith_comm_of_comm _ mul_comm]

theorem dotQ_self (v : List ℚ) : dotQ v v = sumSq v := by
  induction v with
  | nil => rfl
  | cons x xs ih =>
    simp only [dotQ, sumSq, List.zipWith_cons_cons, List.map_cons, List.sum_cons] at ih ⊢
    rw [ih]

/-- The clamp written as the source writes it (`max(0, min(100, s*100))`)
equals the clamp as the specification words it (clamp to `[0,1]`, then
scale by 100). -/
theorem clamp_scale (x : ℝ) : max 0 (min 100 (x * 100)) = min 1 (max 0 x) * 100 := by
  rw [max_min_distrib_left, min_mul_of_nonneg _ _ (by norm_num : (0 : ℝ) ≤ 100),
    max_mul_of_nonneg _ _ (by norm_num : (0 : ℝ) ≤ 100)]
  norm_num

theorem round2_nonneg (x : ℝ) (h : 0 ≤ x) : 0 ≤ round2 x := by
  rw [round2]
  have : (0 : ℤ) ≤ round (x * 100) := by
    rw [round_eq]
    exact Int.floor_nonneg.mpr (by linarith)
  positivity

theorem round2_le_100 (x : ℝ) (h : x ≤ 100) : round2 x ≤ 100 := by
  rw [round2]
  have h1 : round (x * 100) ≤ 10000 := by
    rw [round_eq]
    exact Int.floor_le_iff.mpr (by push_cast; linarith)
  rw [div_le_iff₀ (by norm_num : (0 : ℝ) < 100)]
  calc ((round (x * 100) : ℤ) : ℝ) ≤ ((10000 : ℤ) : ℝ) := by exact_mod_cast h1
    _ = 100 * 100 := by norm_num

theorem round2_hundred : round2 100 = 100 := by
  rw [round2]
  norm_num

/-! ### C3, C8, C10 -/

/-- **C3.** The scorer returns 0 exactly when an input is empty or a
truncated vector's L2 norm is 0, and otherwise the cosine similarity
clamped to `[0,1]`, scaled by 100 and rounded to two decimals; in all
cases the result lies in `[0, 100]`. -/
theorem calculate_match_score_matches_claim (a b : List ℚ) :
    calculate_match_score a b = score_claim a b ∧
    0 ≤ calculate_match_score a b ∧ calculate_match_score a b ≤ 100 := by
  simp only [calculate_match_score, score_claim, pyTry]
  by_cases he : a = [] ∨ b = []
  · rw [if_pos he, if_pos he]
    norm_num
  · rw [if_neg he, if_neg he]
    set sa := Real.sqrt (sumSq (a.take (min a.length b.length)) : ℚ) with hsa
    set sb := Real.sqrt (sumSq (b.take (min a.length b.length)) : ℚ) with hsb
    by_cases hz : sa * sb = 0
    · rw [if_pos hz, if_pos (mul_eq_zero.mp hz)]
      norm_num
    · rw [if_neg hz, if_neg (fun h => hz (mul_eq_zero.mpr h))]
      set s : ℝ := (dotQ (a.take (min a.length b.length)) (b.take (min a.length b.length)) : ℚ) / (sa * sb)
      refine ⟨by rw [clamp_scale], ?_, ?_⟩
      · exact round2_nonneg _ (le_max_left _ _)
      · exact round2_le_100 _ (max_le (by norm_num) (min_le_left _ _))

/-- **C10.** The scorer is symmetric in its two arguments. -/
theorem calculate_match_score_symm (a b : List ℚ) :
    calculate_match_score a b = calculate_match_score b a := by
  simp only [calculate_match_score, pyTry]
  by_cases he : a = [] ∨ b = []
  · rw [if_pos he, if_pos he.symm]
  · rw [if_neg he, if_neg (show ¬(b = [] ∨ a = []) from fun h => he h.symm)]
    rw [min_comm b.length a.length,
      dotQ_comm (a.take (min a.length b.length)) (b.take (min a.length b.length)),
      mul_comm (Real.sqrt (sumSq (a.take (min a.length b.length)) : ℚ))
        (Real.sqrt (sumSq (b.take (min a.length b.length)) : ℚ))]

/-- **C8.** The score of any non-zero vector against itself is exactly
100. -/
theorem calculate_match_score_self (v : List ℚ) (h : sumSq v ≠ 0) :
    calculate_match_score v v = 100 := by
  have hv : v ≠ [] := by
    intro hnil
    exact h (by rw [hnil]; rfl)
  simp only [calculate_match_score, pyTry]
  rw [if_neg (by simp [hv])]
  rw [min_self, List.take_length, dotQ_self]
  have hS : (0 : ℝ) < (sumSq v : ℚ) := by
    have := sumSq_nonneg v
    have : (0 : ℝ) ≤ (sumSq v : ℚ) := by exact_mod_cast this
    rcases this.lt_or_eq with hlt | heq
    · exact hlt
    · exact absurd (by exact_mod_cast heq.symm) h
  rw [Real.mul_self_sqrt hS.le, if_neg hS.ne', div_self hS.ne']
  rw [show max 0 (min 100 ((1 : ℝ) * 100)) = 100 by norm_num]
  exact round2_hundred

/-- Closed witness for C8: the one-component vector `[1]` is non-zero and
scores 100 against itself. -/
theorem calculate_match_score_self_witness :
    sumSq [1] ≠ 0 ∧ calculate_match_score [1] [1] = 100 :=
  ⟨by norm_num [sumSq], calculate_match_score_self [1] (by norm_num [sumSq])⟩

/-! ### Lemmas about the ranker -/

instance : IsTotal Job jobRel := ⟨fun a b => le_total (scoreKey b) (scoreKey a)⟩

instance : IsTrans Job jobRel := ⟨fun _ _ _ hab hbc => le_trans hbc hab⟩

theorem sortJobs_perm (l : List Job) : List.Perm (sortJobs l) l := List.perm_insertionSort _ l

theorem sortJobs_sorted (l : List Job) : List.Sorted jobRel (sortJobs l) :=
  List.sorted_insertionSort _ l

/-- Stability of one insertion step: inserting `x` never reorders the
records that share any given score, and `x` lands before every equal-score
record already present (all records skipped over have a strictly larger
score). -/
theorem orderedInsert_filter_key (x : Job) (s : ℝ) (l : List Job) :
    (List.orderedInsert jobRel x l).filter (fun j => decide (scoreKey j = s)) =
      (x :: l).filter (fun j => decide (scoreKey j = s)) := by
  induction l with
  | nil => rfl
  | cons y ys ih =>
    simp only [List.orderedInsert]
    by_cases hxy : jobRel x y
    · rw [if_pos hxy]
    · rw [if_neg hxy]
      have hlt : scoreKey x < scoreKey y := not_le.mp hxy
      rw [List.filter_cons, ih]
      by_cases hy : scoreKey y = s
      · have hx : ¬scoreKey x = s := by rw [← hy]; exact hlt.ne
        simp [List.filter_cons, hy, hx]
      · simp [List.filter_cons, hy]

/-- Stability of the modelled sort: for every score value, the records
carrying that score appear in the output in their input order. -/
theorem sortJobs_filter_key (s : ℝ) (l : List Job) :
    (sortJobs l).filter (fun j => decide (scoreKey j = s)) =
      l.filter (fun j => decide (scoreKey j = s)) := by
  induction l with
  | nil => rfl
  | cons x xs ih =>
    show (List.orderedInsert jobRel x (List.insertionSort jobRel xs)).filter _ = _
    rw [orderedInsert_filter_key, List.filter_cons, List.filter_cons]
    rw [show List.insertionSort jobRel xs = sortJobs xs from rfl, ih]

/-- The accumulation loop of `find_matching_jobs` builds exactly the
score-stamped filtered list, in input order. -/
theorem rank_loop_eq (sc : Job → ℝ) (ms : ℝ) (jobs : List Job) :
    ∀ acc : List Job,
      jobs.foldl (fun acc job =>
        if ms ≤ sc job then acc ++ [{ job with match_score := some (sc job) }] else acc) acc =
      acc ++ (jobs.filter (fun j => decide (ms ≤ sc j))).map
        (fun j => { j with match_score := some (sc j) }) := by
  induction jobs with
  | nil => intro acc; simp
  | cons j js ih =>
    intro acc
    rw [List.foldl_cons, List.filter_cons]
    by_cases h : ms ≤ sc j
    · rw [if_pos h, ih]
      simp [h]
    · rw [if_neg h, ih]
      simp [h]

/-- `find_matching_jobs` equals take-of-sort of the kept list. -/
theorem find_matching_jobs_eq (p : Profile) (jobs : List Job) (ms : ℝ) (tn : ℕ) :
    find_matching_jobs p jobs ms tn = (sortJobs (rankKept p jobs ms)).take tn := by
  have h := rank_loop_eq
    (fun job => calculate_match_score
      (truthyEmbedding p.resume_embedding (create_profile_embedding p))
      (truthyEmbedding job.job_embedding (create_job_embedding job))) ms jobs []
  rw [List.nil_append] at h
  exact congrArg (fun l => (sortJobs l).take tn) h

/-! ### C2 and C6 -/

/-- **C2.** The ranker returns exactly the jobs scoring at least
`min_score` (with cached fingerprints used when present, else computed on
the fly), each stamped with its score, sorted by score descending with a
stable tie-break in input order, truncated to the first `top_n`: it equals
the specification's pipeline `rank_claim`, its output is sorted
descending and no longer than `top_n`, and the sort it uses is stable
(records of any fixed score keep their input order). -/
theorem find_matching_jobs_matches_claim (p : Profile) (jobs : List Job) (ms : ℝ) (tn : ℕ) :
    find_matching_jobs p jobs ms tn = rank_claim p jobs ms tn ∧
    List.Sorted jobRel (find_matching_jobs p jobs ms tn) ∧
    (find_matching_jobs p jobs ms tn).length ≤ tn ∧
    (∀ s : ℝ, (sortJobs (rankKept p jobs ms)).filter (fun j => decide (scoreKey j = s)) =
      (rankKept p jobs ms).filter (fun j => decide (scoreKey j = s))) := by
  have he := find_matching_jobs_eq p jobs ms tn
  refine ⟨he, ?_, ?_, fun s => sortJobs_filter_key s _⟩
  · rw [he]
    exact List.Pairwise.sublist (List.take_sublist _ _) (sortJobs_sorted _)
  · rw [he, List.length_take]
    exact min_le_left _ _

/-- **C6.** Ranking never mutates its inputs: the embedding is pure (no
record is written back), every result entry is a copy of an input job, and
apart from the stamped `match_score` its fields equal that input job's
fields — stripping `match_score` from the results yields a
sub-permutation of the stripped input list. -/
theorem find_matching_jobs_no_mutation (p : Profile) (jobs : List Job) (ms : ℝ) (tn : ℕ) :
    ((find_matching_jobs p jobs ms tn).map stripScore).Subperm (jobs.map stripScore) := by
  rw [find_matching_jobs_eq]
  have h1 : List.Sublist (((sortJobs (rankKept p jobs ms)).take tn).map stripScore)
      ((sortJobs (rankKept p jobs ms)).map stripScore) :=
    (List.take_sublist _ _).map _
  have h2 : List.Perm ((sortJobs (rankKept p jobs ms)).map stripScore)
      ((rankKept p jobs ms).map stripScore) :=
    (sortJobs_perm _).map _
  have h3 : (rankKept p jobs ms).map stripScore =
      (jobs.filter (fun j => decide (ms ≤ jobScore p j))).map stripScore := by
    rw [rankKept, List.map_map]
    rfl
  have h4 : List.Sublist ((jobs.filter (fun j => decide (ms ≤ jobScore p j))).map stripScore)
      (jobs.map stripScore) :=
    (List.filter_sublist _).map _
  exact (h1.subperm.trans h2.subperm).trans (h3 ▸ h4.subperm)

/-! ### Lemmas about the skill-gap analyzer -/

/-- The recommendation if-chain of the source equals the rule-list
concatenation of the specification, over abstract ingredients. -/
theorem recs_general (M : List String) (pct rem ue : ℚ) (learn m2 m3 : String) :
    (if rem ≠ 0 ∧ ue < rem
      then (if pct < 70 then (if M = [] then [] else [learn]) ++ [m2, m3]
            else (if M = [] then [] else [learn])) ++
        ["Gain " ++ fmtFixed1 (rem - ue) ++ " more years of relevant experience"]
      else (if pct < 70 then (if M = [] then [] else [learn]) ++ [m2, m3]
            else (if M = [] then [] else [learn]))) =
    (if M ≠ [] then [learn] else []) ++ (if pct < 70 then [m2, m3] else []) ++
      (if 0 < (if rem ≠ 0 then max 0 (rem - ue) else 0)
        then ["Gain " ++ fmtFixed1 (if rem ≠ 0 then max 0 (rem - ue) else 0) ++
          " more years of relevant experience"]
        else []) := by
  have hgap : (0 < (if rem ≠ 0 then max 0 (rem - ue) else 0)) ↔ (rem ≠ 0 ∧ ue < rem) := by
    by_cases h : rem = 0
    · simp [h]
    · simp [h, lt_max_iff, sub_pos]
  by_cases h1 : rem ≠ 0 ∧ ue < rem
  · rw [if_pos h1, if_pos (hgap.mpr h1)]
    rw [show (if rem ≠ 0 then max 0 (rem - ue) else 0) = rem - ue by
      rw [if_pos h1.1, max_eq_right (sub_pos.mpr h1.2).le]]
    by_cases h2 : pct < 70 <;> by_cases h3 : M = [] <;> simp [h2, h3]
  · rw [if_neg h1, if_neg (fun h => h1 (hgap.mp h))]
    by_cases h2 : pct < 70 <;> by_cases h3 : M = [] <;> simp [h2, h3]

theorem round1_hundred : round1 100 = 100 := by
  rw [round1]
  norm_num

/-! ### C7 -/

/-- **C7.** Recommendation generation is the deterministic rule list, in
the fixed order, with every applicable rule emitting its message: a
"consider learning" message naming up to 5 missing skills when `missing`
is non-empty, two fixed generic suggestions when the match percentage is
below 70, and a message stating the (positive) experience gap in years. -/
theorem analyze_skill_gap_recommendations (p : Profile) (j : Job) :
    (analyze_skill_gap p j).recommendations = recommendations_claim p j := by
  simp only [analyze_skill_gap, recommendations_claim, pyTry]
  exact recs_general _ _ _ _ _ _ _

/-! ### C4 -/

/-- **C4 counterexample.** Profile `{skills: ["python"],
experience_years: -1}` against job `{skills_required: ["python", "react",
"sql"]}` (no `experience_min`): here `|matching| = 1` and `|required| = 3`,
so the claim's formulas give `matchPercentage = 100·1/3` and
`experienceGapYears = max(0, 0 − (−1)) = 1`, but the code returns the
1-decimal-rounded `333/10` and (because `experience_min` is absent, hence
falsy) gap `0`. -/
theorem analyze_skill_gap_claim_counterexample :
    (analyze_skill_gap
        { skills := some ["python"], experience_years := some (-1), target_roles := none,
          education := none, resume_text := none, resume_embedding := none }
        { title := none, company := none, location := none,
          skills_required := some ["python", "react", "sql"], experience_min := none,
          experience_max := none, description := none, requirements := none,
          job_embedding := none, match_score := none }).match_percentage ≠ 100 * 1 / 3 ∧
    (analyze_skill_gap
        { skills := some ["python"], experience_years := some (-1), target_roles := none,
          education := none, resume_text := none, resume_embedding := none }
        { title := none, company := none, location := none,
          skills_required := some ["python", "react", "sql"], experience_min := none,
          experience_max := none, description := none, requirements := none,
          job_embedding := none, match_score := none }).experience_gap_years ≠
      max 0 ((0 : ℚ) - (-1)) := by
  constructor
  · have h : (analyze_skill_gap
        { skills := some ["python"], experience_years := some (-1), target_roles := none,
          education := none, resume_text := none, resume_embedding := none }
        { title := none, company := none, location := none,
          skills_required := some ["python", "react", "sql"], experience_min := none,
          experience_max := none, description := none, requirements := none,
          job_embedding := none, match_score := none }).match_percentage =
        round1 ((1 : ℚ) / 3 * 100) := by
      show round1 ((((["python", "react", "sql"].map pyLower).dedup.filter
          (fun s => decide (s ∈ (["python"].map pyLower).dedup))).length : ℚ) /
          (((["python", "react", "sql"].map pyLower).dedup).length : ℚ) * 100) = _
      rw [show ((["python", "react", "sql"].map pyLower).dedup.filter
          (fun s => decide (s ∈ (["python"].map pyLower).dedup))).length = 1 from by decide,
        show ((["python", "react", "sql"].map pyLower).dedup).length = 3 from by decide]
      norm_num
    rw [h, show round1 ((1 : ℚ) / 3 * 100) = 333 / 10 by
      rw [round1, show ((1 : ℚ) / 3 * 100 * 10) = 1000 / 3 by norm_num, round_eq,
        show ⌊(1000 : ℚ) / 3 + 1 / 2⌋ = 333 by rw [Int.floor_eq_iff]; norm_num]
      norm_num]
    norm_num
  · have h : (analyze_skill_gap
        { skills := some ["python"], experience_years := some (-1), target_roles := none,
          education := none, resume_text := none, resume_embedding := none }
        { title := none, company := none, location := none,
          skills_required := some ["python", "react", "sql"], experience_min := none,
          experience_max := none, description := none, requirements := none,
          job_embedding := none, match_score := none }).experience_gap_years = 0 := by
      show (if (0 : ℚ) ≠ 0 then max 0 ((0 : ℚ) - (-1)) else 0) = (0 : ℚ)
      norm_num
    rw [h, show ((0 : ℚ) - (-1)) = 1 by norm_num,
      max_eq_right (by norm_num : (0 : ℚ) ≤ 1)]
    norm_num

/-- **C4 (amended).** Over the lowercased skill sets, `matching` is the
intersection and `missing` the difference; `matchPercentage` is
`100·|matching|/|requiredSkills|` **rounded to 1 decimal place** when
`requiredSkills` is non-empty and exactly 100 otherwise; and
`experienceGapYears` is `max(0, experienceMin − experienceYears)` when
`experienceMin` is present and non-zero, else 0. -/
theorem analyze_skill_gap_amended (p : Profile) (j : Job) :
    (analyze_skill_gap p j).matching_skills.toFinset =
      lowerSet (p.skills.getD []) ∩ lowerSet (j.skills_required.getD []) ∧
    (analyze_skill_gap p j).missing_skills.toFinset =
      lowerSet (j.skills_required.getD []) \ lowerSet (p.skills.getD []) ∧
    (analyze_skill_gap p j).match_percentage =
      (if lowerSet (j.skills_required.getD []) = ∅ then 100
       else round1 (100 *
          ((lowerSet (p.skills.getD []) ∩ lowerSet (j.skills_required.getD [])).card : ℚ) /
          ((lowerSet (j.skills_required.getD [])).card : ℚ))) ∧
    (analyze_skill_gap p j).experience_gap_years =
      (if numTruthy j.experience_min
       then max 0 (j.experience_min.getD 0 - p.experience_years.getD 0) else 0) := by
  simp only [analyze_skill_gap, pyTry]
  set UL := ((p.skills.getD []).map pyLower).dedup with hUL
  set RL := ((j.skills_required.getD []).map pyLower).dedup with hRL
  have hnodupRL : RL.Nodup := by rw [hRL]; exact List.nodup_dedup _
  have hmatch : (RL.filter (fun s => decide (s ∈ UL))).toFinset =
      lowerSet (p.skills.getD []) ∩ lowerSet (j.skills_required.getD []) := by
    ext x
    simp [lowerSet, hUL, hRL, List.mem_filter, List.mem_dedup]
    try tauto
  have hmiss : (RL.filter (fun s => decide (s ∉ UL))).toFinset =
      lowerSet (j.skills_required.getD []) \ lowerSet (p.skills.getD []) := by
    ext x
    simp [lowerSet, hUL, hRL, List.mem_filter, List.mem_dedup]
    try tauto
  refine ⟨hmatch, hmiss, ?_, ?_⟩
  · by_cases hR : RL = []
    · have hs : lowerSet (j.skills_required.getD []) = ∅ := by
        rw [lowerSet, List.toFinset_eq_empty_iff]
        exact (List.dedup_eq_nil _).mp (by rw [← hRL]; exact hR)
      rw [hR, if_pos rfl, if_pos hs]
      exact round1_hundred
    · have hmapne : (j.skills_required.getD []).map pyLower ≠ [] := by
        intro hm
        exact hR (by rw [hRL, hm]; rfl)
      have hs : lowerSet (j.skills_required.getD []) ≠ ∅ := by
        rw [lowerSet, Ne, List.toFinset_eq_empty_iff]
        exact hmapne
      rw [if_neg hR, if_neg hs]
      have h1 : ((lowerSet (p.skills.getD []) ∩ lowerSet (j.skills_required.getD [])).card : ℚ) =
          ((RL.filter (fun s => decide (s ∈ UL))).length : ℚ) := by
        rw [← hmatch, List.toFinset_card_of_nodup (List.Nodup.filter _ hnodupRL)]
      have h2 : (((lowerSet (j.skills_required.getD []))).card : ℚ) = (RL.length : ℚ) := by
        rw [lowerSet, List.card_toFinset, ← hRL]
      rw [h1, h2]
      congr 1
      ring
  · cases hm : j.experience_min with
    | none => simp [numTruthy]
    | some q => by_cases hq : q = 0 <;> simp [numTruthy, hq]

/-! ### C9 -/

theorem simple_embedding_length (text : String) : (_simple_embedding text).length = 128 := by
  by_cases h : pySplit (pyLower text) = []
  · rw [simple_embedding_of_nil text h, List.length_replicate]
  · rw [simple_embedding_of_ne_nil text h, List.length_map, rawBuckets_length]

/-- **C9.** Every exposed operation of the matching core is a total
function of the full (optional-field) data model, and each `except`
branch's fallback value is exactly the one the specification prescribes:
the all-zero 128-vector for both encoders, `0.0` for the scorer, the empty
list for the ranker, and the empty-sets / 0% / 0-gap record with the single
fallback message for the skill-gap analyzer.  (In this typed embedding the
translated bodies are total, so totality itself holds by construction; the
theorem additionally checks the encoders always deliver a full-length
fingerprint.) -/
theorem matcher_total_with_fallbacks :
    profileEmbeddingFallback = List.replicate 128 0 ∧
    jobEmbeddingFallback = List.replicate 128 0 ∧
    scoreFallback = 0 ∧
    rankFallback = [] ∧
    skillGapFallback =
      ({ matching_skills := [], missing_skills := [], match_percentage := 0,
         experience_gap_years := 0,
         recommendations := ["Unable to analyze skill gap"] } : SkillGapResult) ∧
    (∀ p : Profile, (create_profile_embedding p).length = 128) ∧
    (∀ j : Job, (create_job_embedding j).length = 128) := by
  refine ⟨rfl, rfl, rfl, rfl, rfl, ?_, ?_⟩
  · intro p
    simp only [create_profile_embedding, pyTry]
    exact simple_embedding_length _
  · intro j
    simp only [create_job_embedding, pyTry]
    exact simple_embedding_length _

set_option maxRecDepth 100000 in
/-- Sanity anchor for the hash embedding: the modelled MD5 agrees with the
RFC 1321 test vector for `"abc"`. -/
theorem md5Int_test_vector : md5Int "abc" = 0x900150983cd24fb0d6963f7d28e17f72 := by decide

set_option maxRecDepth 100000 in
/-- Sanity anchor for the padding path: the modelled MD5 of the empty
string agrees with RFC 1321. -/
theorem md5Int_empty_test_vector : md5Int "" = 0xd41d8cd98f00b204e9800998ecf8427e := by decide

end Matcher
